import Mathlib

/-!
Verification of the generation orchestration pipeline of WebP-Gif-Animator
(`src/apps/nano-studio-pro/services/geminiService.ts` and its caller
`handleProcess` in the main application component).

Strings of the program are modelled as `List Char`; JavaScript errors as a
record of an optional HTTP status code and a message; the two remote models
(analysis and generation) as caller-supplied oracles indexed by the attempt
number, so that retry behaviour is observable.  The status-update callback and
the fixed backoff delays of the retry controller are modelled as an explicit
event trace, and the remote calls issued by the pipeline as an explicit list
of `RemoteCall` values.
-/

set_option maxRecDepth 40000

namespace NanoStudio

/-- Characters of a string literal: all program text is modelled as `List Char`. -/
def s (x : String) : List Char := x.data

/-- Substring test, mirroring JavaScript `haystack.includes(needle)`:
the needle occurs as a contiguous substring (prefix of some tail). -/
def containsSub : List Char → List Char → Bool
  | [], n => n.isPrefixOf []
  | c :: t, n => n.isPrefixOf (c :: t) || containsSub t n

/-- A JavaScript error value as inspected by the retry controller: an optional
HTTP-style status code and a message string (`undefined` message = `[]`). -/
structure ErrVal where
  status : Option Nat
  msg : List Char

deriving DecidableEq

/-- Transient-error classification of `runWithRetry` (geminiService.ts lines
26–29): status 429, or message containing "429", or lower-cased message
containing "quota" (rate limit); status 503 or message containing "503"
(server overload). -/
def isTransientErr (e : ErrVal) : Bool :=
  (e.status == some 429 || containsSub e.msg (s "429")
    || containsSub (e.msg.map Char.toLower) (s "quota"))
  || (e.status == some 503 || containsSub e.msg (s "503"))

/-- One observable side effect of the retry controller: a message sent to the
status sink, or a backoff delay of the given number of milliseconds. -/
inductive REvent where
  | status : List Char → REvent
  | wait : Nat → REvent

deriving DecidableEq

deriving instance DecidableEq for Except

/-- Result of a retried operation together with its observable behaviour:
the final result, the number of invocations of the wrapped operation, and the
ordered trace of status-sink updates and backoff waits. -/
structure RetryOutcome (α : Type) where
  result : Except ErrVal α
  calls : Nat
  events : List REvent

deriving DecidableEq

/-- The status message `High traffic. Retrying in 10s... (Attempt k/max)`. -/
def retryMsg (attempt retries : Nat) : List Char :=
  s "High traffic. Retrying in 10s... (Attempt " ++ (Nat.repr attempt).data
    ++ s "/" ++ (Nat.repr retries).data ++ s ")"

/-- The status message sent after each backoff wait. -/
def resumeMsg : List Char := s "Resuming processing..."

/-- Loop body of `runWithRetry` (geminiService.ts lines 17–46).  The `while`
loop is translated to structural recursion on `rl = retries - attempt`, the
number of further failures the controller will tolerate; `i` is the 0-based
index of the current invocation, so the attempt counter after a failure of
invocation `i` is `i + 1`, and the guard `attempt > retries` of line 23 is
exactly `rl = 0`.  On a transient failure the controller emits a status
update, waits a fixed 10000 ms, emits `resumeMsg`, and re-invokes. -/
def runRetryGo {α : Type} (op : Nat → Except ErrVal α) (retries : Nat) :
    Nat → Nat → RetryOutcome α
  | i, rl =>
    match op i, rl with
    | .ok v, _ => ⟨.ok v, 1, []⟩
    | .error e, 0 => ⟨.error e, 1, []⟩
    | .error e, rl' + 1 =>
      if isTransientErr e then
        let r := runRetryGo op retries (i + 1) rl'
        ⟨r.result, r.calls + 1,
          REvent.status (retryMsg (i + 1) retries) :: REvent.wait 10000
            :: REvent.status resumeMsg :: r.events⟩
      else ⟨.error e, 1, []⟩

/-- `runWithRetry(fn, onStatusUpdate?, retries)` with the operation modelled
as a function of the 0-based invocation index. -/
def runWithRetry {α : Type} (op : Nat → Except ErrVal α) (retries : Nat) :
    RetryOutcome α :=
  runRetryGo op retries 0 retries

/-- Number of backoff waits in a retry trace. -/
def countWaits : List REvent → Nat
  | [] => 0
  | .wait _ :: t => countWaits t + 1
  | _ :: t => countWaits t

/-- Every wait in the trace is immediately preceded by a status-sink update
(`prev` is the event preceding the head of the list, if any). -/
def waitsPrecededAux : Option REvent → List REvent → Bool
  | _, [] => true
  | prev, .wait m :: t =>
    (match prev with
     | some (.status _) => true
     | _ => false) && waitsPrecededAux (some (.wait m)) t
  | _, ev :: t => waitsPrecededAux (some ev) t

/-- Every wait in the trace is immediately preceded by a status-sink update. -/
def waitsPreceded (l : List REvent) : Bool := waitsPrecededAux none l

/-- Every backoff wait in the trace is the fixed 10-second delay. -/
def allWaitsTenSeconds (l : List REvent) : Bool :=
  l.all fun ev => match ev with
    | .wait m => decide (m = 10000)
    | _ => true

/-- Expected retry trace when every invocation fails with a transient error,
starting from invocation index `i` with `rl` tolerated further failures. -/
def transientTrace (retries : Nat) : Nat → Nat → List REvent
  | _, 0 => []
  | i, rl + 1 =>
    REvent.status (retryMsg (i + 1) retries) :: REvent.wait 10000
      :: REvent.status resumeMsg :: transientTrace retries (i + 1) rl

/-- A concrete transient error: HTTP status 429 with no message. -/
def err429 : ErrVal := ⟨some 429, []⟩

/-- A concrete terminal error: HTTP status 400 with an unrelated message. -/
def err400 : ErrVal := ⟨some 400, s "Bad request"⟩

/-- JavaScript whitespace class (`\s` of regexes and `String.prototype.trim`):
ASCII whitespace plus the Unicode space separators, line/paragraph separators,
narrow no-break space, ideographic space and BOM. -/
def isJsWs (c : Char) : Bool :=
  c.toNat == 32 || c.toNat == 9 || c.toNat == 10 || c.toNat == 11
    || c.toNat == 12 || c.toNat == 13 || c.toNat == 0xa0 || c.toNat == 0x1680
    || (0x2000 ≤ c.toNat && c.toNat ≤ 0x200a) || c.toNat == 0x2028
    || c.toNat == 0x2029 || c.toNat == 0x202f || c.toNat == 0x205f
    || c.toNat == 0x3000 || c.toNat == 0xfeff

/-- JavaScript `str.replace(pat, rep)` with a string pattern: replaces the
first occurrence of `pat` only (the string is unchanged when `pat` does not
occur; an empty pattern matches at position 0). -/
def replaceFirst (pat rep : List Char) : List Char → List Char
  | [] => if pat.isPrefixOf [] then rep else []
  | c :: t =>
    if pat.isPrefixOf (c :: t) then rep ++ (c :: t).drop pat.length
    else c :: replaceFirst pat rep t

/-- JavaScript `str.trim()`. -/
def trimJs (l : List Char) : List Char :=
  ((l.dropWhile isJsWs).reverse.dropWhile isJsWs).reverse

/-- JavaScript `str.replace(/\s+/g, '-')`: every maximal run of whitespace
becomes a single hyphen (`inRun` tracks whether we are inside a run). -/
def replaceWsRunsGo : Bool → List Char → List Char
  | _, [] => []
  | inRun, c :: t =>
    if isJsWs c then
      (if inRun then replaceWsRunsGo true t else '-' :: replaceWsRunsGo true t)
    else c :: replaceWsRunsGo false t

/-- JavaScript `str.replace(/\s+/g, '-')`. -/
def replaceWsRuns (l : List Char) : List Char := replaceWsRunsGo false l

/-- Filename suffix of the ANGLES strategy (geminiService.ts line 296):
`angle.split(' ')[0].toLowerCase().replace(/\s+/g, '-')`.  `split(' ')[0]` is
the prefix of the label up to the first space character. -/
def jsAngleSuffix (angle : List Char) : List Char :=
  replaceWsRuns ((angle.takeWhile fun c => c != ' ').map Char.toLower)

/-- A source image: its viewpoint label and an abstract identity for its
binary content (the pipeline never inspects the bytes). -/
structure SourceImage where
  label : List Char
  file : Nat

deriving DecidableEq

/-- The four transformation strategies of `PresetType` (types.ts). -/
inductive PresetType where
  | GHOST_MANNEQUIN
  | LIFESTYLE
  | ANGLES
  | BG_REMOVE_REPAIR

deriving DecidableEq

/-- Parsed result of the analysis adapter: product description and filename
stem (the JSON-field defaulting `json.description || ""`,
`json.filename || "processed-product"` is part of the modelled remote parse). -/
structure AnalysisResult where
  description : List Char
  filename : List Char

deriving DecidableEq

/-- One part of a generation request: a text segment, a source-image segment
(`fileToGenerativePart`), or a base64 reference-image segment
(`base64ToGenerativePart`). -/
inductive Part where
  | text : List Char → Part
  | image : Nat → Part
  | ref : List Char → Part

deriving DecidableEq

/-- One generation request as handed to the generation adapter: ordered
parts, resolution tier, and the aspect-ratio string of `imageConfig`. -/
structure GenCall where
  parts : List Part
  quality : List Char
  aspect : List Char

deriving DecidableEq

/-- One part of a remote response candidate: optional text, optional inline
image data. -/
structure RPart where
  text : Option (List Char)
  inlineData : Option (List Char)

deriving DecidableEq

/-- A response candidate: `candidate.content?.parts` flattened to an optional
part list. -/
structure Candidate where
  parts : Option (List RPart)

deriving DecidableEq

/-- A remote generation response: its candidate list. -/
structure GenResponse where
  candidates : List Candidate

deriving DecidableEq

/-- The externally visible result type: data URL and suggested filename. -/
structure ProcessedImage where
  url : List Char
  filename : List Char

deriving DecidableEq

/-- A remote call issued by the pipeline: an analysis call on a file, or a
generation call with its composed request. -/
inductive RemoteCall where
  | analysis : Nat → RemoteCall
  | generation : GenCall → RemoteCall

deriving DecidableEq

/-- First part carrying usable inline image data (`part.inlineData &&
part.inlineData.data`, so empty data is skipped as falsy). -/
def firstInline : List RPart → Option (List Char)
  | [] => none
  | p :: t =>
    match p.inlineData with
    | some d => if d = [] then firstInline t else some d
    | none => firstInline t

/-- The SDK accessor `response.text`: concatenated text parts of the first
candidate (empty when absent). -/
def responseText (r : GenResponse) : List Char :=
  match r.candidates.head? with
  | none => []
  | some c => ((c.parts.getD []).filterMap RPart.text).flatten

/-- Response classification of the generation adapter (geminiService.ts lines
154–169): no first candidate → "No candidates returned from the model."; a
part with usable inline data → success with a png data URL; truthy
`response.text` → error embedding the first 150 characters of the text;
otherwise → "No image generated.". -/
def extractImage (r : GenResponse) : Except ErrVal (List Char) :=
  match r.candidates.head? with
  | none => Except.error ⟨none, s "No candidates returned from the model."⟩
  | some c =>
    match firstInline (c.parts.getD []) with
    | some d => Except.ok (s "data:image/png;base64," ++ d)
    | none =>
      if responseText r ≠ [] then
        Except.error ⟨none, s "Model returned text instead of image: "
          ++ (responseText r).take 150 ++ s "..."⟩
      else Except.error ⟨none, s "No image generated."⟩

/-- One attempt of the generation adapter's wrapped operation: the remote
call (attempt-indexed oracle `gen`) followed by response classification. -/
def genStep (gen : GenCall → Nat → Except ErrVal GenResponse) (c : GenCall)
    (i : Nat) : Except ErrVal (List Char) :=
  match gen c i with
  | Except.error e => Except.error e
  | Except.ok r => extractImage r

/-- The terminal precondition error of both adapters (geminiService.ts line
132): thrown before the retry wrapper is entered. -/
def apiKeyErr : ErrVal := ⟨none, s "API Key not provided."⟩

/-- `callGeminiGenerator`: missing credential → immediate terminal error with
no remote call; otherwise the classified remote call runs under the retry
controller and one generation request is issued. -/
def callGeminiGenerator (apiKey : List Char)
    (gen : GenCall → Nat → Except ErrVal GenResponse) (c : GenCall) :
    Except ErrVal (List Char) × List RemoteCall :=
  if apiKey = [] then (Except.error apiKeyErr, [])
  else ((runWithRetry (genStep gen c) 10).result, [RemoteCall.generation c])

/-- `analyzeProductFeatures`: empty credential short-circuits to
`("", "product")` with no remote call; otherwise the retried analysis oracle
(remote call plus JSON parse, attempt-indexed) either yields its parsed
result or degrades to `("", "processed-product")` via the final `.catch`. -/
def analyzeProductFeatures (apiKey : List Char)
    (ana : Nat → Nat → Except ErrVal AnalysisResult) (file : Nat) :
    AnalysisResult × List RemoteCall :=
  if apiKey = [] then (⟨[], s "product"⟩, [])
  else
    match (runWithRetry (ana file) 10).result with
    | Except.ok r => (r, [RemoteCall.analysis file])
    | Except.error _ => (⟨[], s "processed-product"⟩, [RemoteCall.analysis file])

/-- The `<BodyType>` placeholder. -/
def bodyPh : List Char := s "<BodyType>"

/-- The `\x7b\x7bANGLE\x7d\x7d` placeholder. -/
def anglePh : List Char := s "\x7b\x7bANGLE\x7d\x7d"

/-- The `\x7b\x7bPROMPT\x7d\x7d` placeholder. -/
def promptPh : List Char := s "\x7b\x7bPROMPT\x7d\x7d"

/-- The strict body-type constraint clause (geminiService.ts line 209). -/
def strictBodyInstr (bt : List Char) : List Char :=
  s "\n\nCRITICAL REQUIREMENT: The target body type for this generation is strict: "
    ++ bt.map Char.toUpper
    ++ s ". \nIf the prompt implies a human figure, model, or mannequin, it MUST match the "
    ++ bt ++ s " anatomy and proportions. Do not generate any other gender or age group."

/-- The identity-preservation framing prepended to the analysis description. -/
def preserveMarker : List Char :=
  s "\n\nIMPORTANT - PRESERVE THESE DETECTED PRODUCT DETAILS:\n"

/-- Style-reference framing of the per-image branch. -/
def ghostRefHeader : List Char :=
  s "INPUT 1: STYLE REFERENCE IMAGE. Use the lighting, background style, and mood from this image. DO NOT use the object in this image."

/-- Product-image framing of the per-image branch. -/
def ghostProductHeader : List Char :=
  s "INPUT 2: PRODUCT IMAGE. This is the object to be processed."

/-- Style-reference framing of the shared context block. -/
def ctxRefHeader : List Char :=
  s "========================================\nPART 1: STYLE REFERENCE\nUse the following image ONLY for background style, lighting, and color grading. DO NOT generate the object found in this image.\n========================================"

/-- Product-images framing of the shared context block. -/
def ctxProductHeader : List Char :=
  s "========================================\nPART 2: SOURCE PRODUCT IMAGES\nThe following images define the object you must generate. Preserve the identity, logos, and geometry of this object.\n========================================"

/-- Replacement instruction for the two composite-angle labels. -/
def compositeAngleInstr : List Char :=
  s "Create a single composite image showing both the Front View and Back View of the product side-by-side. Ensure both sides are clearly visible, same size, and evenly lit on a white background."

/-- The compositor framing of the LIFESTYLE strategy. -/
def lifestyleMarker : List Char :=
  s "\n\nSTRICT REQUIREMENT: The object in the input image is the SOURCE OF TRUTH. Do not regenerate the geometry, text, or logos. You are a compositor, not a designer. Maintain these exact details:\n"

/-- Environment-setting clause opener of the composite branch. -/
def envPre : List Char := s "\n\nENVIRONMENT SETTING: Place the product in an "

/-- Environment-setting clause closer. -/
def envPost : List Char := s " setting."

/-- Scene-details clause opener of the composite branch. -/
def scenePre : List Char := s "\n\nSPECIFIC SCENE DETAILS: "

/-- Default angle triple used when the angle selection is empty or absent. -/
def defaultAngles : List (List Char) :=
  [s "Front View", s "Side View", s "3/4 Perspective View"]

/-- The JavaScript runtime error raised when `sourceImages[0]` is undefined
and its `.file` is read (empty image list outside the per-image branch). -/
def typeErr : ErrVal := ⟨none, s "TypeError: Cannot read properties of undefined"⟩

/-- JavaScript truthiness of an optional string. -/
def truthyS : Option (List Char) → Bool
  | some r => decide (r ≠ [])
  | none => false

/-- `sourceImages.find(i => i.label === 'Front View') || sourceImages[0]`. -/
def primaryOf (l : List SourceImage) : Option SourceImage :=
  (l.find? fun i => decide (i.label = s "Front View")).orElse fun _ => l.head?

/-- `bodyType || 'Men'`. -/
def selectedBodyTypeOf (bodyType : Option (List Char)) : List Char :=
  match bodyType with
  | some b => if b = [] then s "Men" else b
  | none => s "Men"

/-- `Promise.all` over already-planned unit results: the ordered list when
every unit succeeded, else the first error in unit order. -/
def seqExcept {α : Type} : List (Except ErrVal α) → Except ErrVal (List α)
  | [] => Except.ok []
  | Except.error e :: _ => Except.error e
  | Except.ok v :: t =>
    match seqExcept t with
    | Except.ok l => Except.ok (v :: l)
    | Except.error e => Except.error e

/-- One unit of the per-image (GHOST_MANNEQUIN) branch (geminiService.ts
lines 213–242): per-image analysis, body-type substitution, strict clause and
per-image grounding, optional style reference, fixed 3:4 aspect override. -/
def ghostUnit (ana : Nat → Nat → Except ErrVal AnalysisResult)
    (gen : GenCall → Nat → Except ErrVal GenResponse)
    (apiKey customPrompt imageQuality : List Char) (useRef : Bool)
    (refData selBT : List Char) (img : SourceImage) :
    Except ErrVal ProcessedImage × List RemoteCall :=
  let a := analyzeProductFeatures apiKey ana img.file
  let promptWithBodyType := replaceFirst bodyPh selBT customPrompt
  let augmented := promptWithBodyType ++ s "\n" ++ strictBodyInstr selBT
    ++ preserveMarker ++ a.1.description
  let parts :=
    (if useRef then [Part.text ghostRefHeader, Part.ref refData] else [])
      ++ [Part.text ghostProductHeader, Part.image img.file,
          Part.text (s "TASK: " ++ augmented)]
  let c : GenCall := ⟨parts, imageQuality, s "3:4"⟩
  let g := callGeminiGenerator apiKey gen c
  (g.1.map fun u => ⟨u, a.1.filename⟩, a.2 ++ g.2)

/-- The per-image (GHOST_MANNEQUIN) branch: one concurrent unit per source
image, results in source-image order. -/
def ghostRun (ana : Nat → Nat → Except ErrVal AnalysisResult)
    (gen : GenCall → Nat → Except ErrVal GenResponse)
    (apiKey customPrompt imageQuality : List Char) (useRef : Bool)
    (refData selBT : List Char) (sourceImages : List SourceImage) :
    Except ErrVal (List ProcessedImage) × List RemoteCall :=
  let units := sourceImages.map
    (ghostUnit ana gen apiKey customPrompt imageQuality useRef refData selBT)
  (seqExcept (units.map Prod.fst), (units.map Prod.snd).flatten)

/-- One unit of the per-angle (ANGLES) branch (geminiService.ts lines
276–298): special-cased composite labels, `ANGLE` placeholder substitution or
`Generate view:` prefixing, shared context, fixed 3:4 aspect override, and
the filename suffix from the angle label. -/
def anglesCallOf (imageQuality : List Char) (contextParts : List Part)
    (pwbt selBT descr : List Char) (angle : List Char) : GenCall :=
  let angleInstruction :=
    if angle = s "Combined Front and Back View Side-by-Side"
        ∨ angle = s "Front & Back Composite"
    then compositeAngleInstr else angle
  let anglePrompt :=
    if containsSub pwbt anglePh then replaceFirst anglePh angleInstruction pwbt
    else s "Generate view: " ++ angleInstruction ++ s ". " ++ pwbt
  let full := anglePrompt ++ s "\n" ++ strictBodyInstr selBT ++ preserveMarker ++ descr
  ⟨contextParts ++ [Part.text (s "TASK: " ++ full)], imageQuality, s "3:4"⟩

def anglesUnit (gen : GenCall → Nat → Except ErrVal GenResponse)
    (apiKey imageQuality : List Char) (contextParts : List Part)
    (pwbt selBT descr fname : List Char) (angle : List Char) :
    Except ErrVal ProcessedImage × List RemoteCall :=
  let c := anglesCallOf imageQuality contextParts pwbt selBT descr angle
  let g := callGeminiGenerator apiKey gen c
  (g.1.map fun u => ⟨u, fname ++ s "-" ++ jsAngleSuffix angle⟩, g.2)

/-- The per-angle (ANGLES) branch: one concurrent unit per requested angle,
results in angle order, all grounded by the single primary analysis. -/
def anglesRun (gen : GenCall → Nat → Except ErrVal GenResponse)
    (apiKey imageQuality : List Char) (contextParts : List Part)
    (pwbt selBT descr fname : List Char) (angles : List (List Char)) :
    Except ErrVal (List ProcessedImage) × List RemoteCall :=
  let units := angles.map
    (anglesUnit gen apiKey imageQuality contextParts pwbt selBT descr fname)
  (seqExcept (units.map Prod.fst), (units.map Prod.snd).flatten)

/-- The single-composite branch (geminiService.ts lines 304–331): `PROMPT`
placeholder stripping with fallback to the raw prompt, body-type
substitution, environment and scene addenda, LIFESTYLE compositor framing vs.
plain grounding framing, caller-selected aspect ratio, one generation call. -/
def compositeRun (gen : GenCall → Nat → Except ErrVal GenResponse)
    (apiKey imageQuality : List Char) (presetId : PresetType)
    (contextParts : List Part) (customPrompt selBT : List Char)
    (environment additionalContext : Option (List Char))
    (descr fname targetAspect : List Char) :
    Except ErrVal (List ProcessedImage) × List RemoteCall :=
  let cp0 := trimJs (replaceFirst promptPh [] customPrompt)
  let cp1 := if cp0 = [] then customPrompt else cp0
  let cp2 := replaceFirst bodyPh selBT cp1
  let cp3 := if truthyS environment then
      cp2 ++ envPre ++ environment.getD [] ++ envPost
    else cp2
  let cp4 := if truthyS additionalContext then
      cp3 ++ scenePre ++ additionalContext.getD []
    else cp3
  let finalPrompt :=
    if presetId = PresetType.LIFESTYLE then
      s "COMPOSITE TASK: " ++ cp4 ++ s "\n" ++ strictBodyInstr selBT
        ++ lifestyleMarker ++ descr
    else cp4 ++ preserveMarker ++ descr
  let c : GenCall :=
    ⟨contextParts ++ [Part.text (s "TASK: " ++ finalPrompt)], imageQuality, targetAspect⟩
  let g := callGeminiGenerator apiKey gen c
  (g.1.map fun u => [ProcessedImage.mk u fname], g.2)

/-- `processImagesWithGemini` (geminiService.ts lines 186–332), parameterized
by the attempt-indexed analysis and generation oracles.  Returns the batch
result together with the ordered list of remote calls issued.  The
`PRESETS.find` lookup always succeeds because every `PresetType` value occurs
in `PRESETS` (constants.tsx), so the "Invalid preset selected" error is
unreachable and not modelled. -/
def processImagesWithGemini (ana : Nat → Nat → Except ErrVal AnalysisResult)
    (gen : GenCall → Nat → Except ErrVal GenResponse)
    (sourceImages : List SourceImage) (presetId : PresetType)
    (customPrompt apiKey imageQuality : List Char)
    (referenceImageBase64 : Option (List Char))
    (targetAngles : Option (List (List Char)))
    (bodyType : Option (List Char)) (targetAspect : List Char)
    (environment additionalContext : Option (List Char)) :
    Except ErrVal (List ProcessedImage) × List RemoteCall :=
  let useRef := truthyS referenceImageBase64
    && decide (presetId ≠ PresetType.BG_REMOVE_REPAIR)
  let selBT := selectedBodyTypeOf bodyType
  let refData := referenceImageBase64.getD []
  if presetId = PresetType.GHOST_MANNEQUIN then
    ghostRun ana gen apiKey customPrompt imageQuality useRef refData selBT sourceImages
  else
    match primaryOf sourceImages with
    | none => (Except.error typeErr, [])
    | some primary =>
      let a := analyzeProductFeatures apiKey ana primary.file
      let contextParts :=
        (if useRef then [Part.text ctxRefHeader, Part.ref refData] else [])
          ++ [Part.text ctxProductHeader]
          ++ sourceImages.flatMap fun img =>
              [Part.text (s "Viewpoint: " ++ img.label), Part.image img.file]
      if presetId = PresetType.ANGLES then
        let anglesToGenerate :=
          match targetAngles with
          | some l => if l = [] then defaultAngles else l
          | none => defaultAngles
        let r := anglesRun gen apiKey imageQuality contextParts
          (replaceFirst bodyPh selBT customPrompt) selBT a.1.description
          a.1.filename anglesToGenerate
        (r.1, a.2 ++ r.2)
      else
        let r := compositeRun gen apiKey imageQuality presetId contextParts
          customPrompt selBT environment additionalContext a.1.description
          a.1.filename targetAspect
        (r.1, a.2 ++ r.2)

/-- Aspect-ratio resolution of `handleProcess` (application component):
`targetAspectRatio` starts at `1:1` and is recomputed from the ratio family
and orientation flag only for the LIFESTYLE preset. -/
def resolveTargetAspect (presetId : PresetType) (fam : List Char)
    (isPortrait : Bool) : List Char :=
  if presetId = PresetType.LIFESTYLE then
    if fam = s "1:1" then s "1:1"
    else if fam = s "4:3" then (if isPortrait then s "3:4" else s "4:3")
    else if fam = s "16:9" then (if isPortrait then s "9:16" else s "16:9")
    else s "1:1"
  else s "1:1"

/-- The instruction text of a generation request: its final text part. -/
def taskTextOf (c : GenCall) : List Char :=
  match c.parts.getLast? with
  | some (Part.text t) => t
  | _ => []

/-- Projection of a remote-call trace to its generation requests. -/
def toGenCall : RemoteCall → Option GenCall
  | RemoteCall.generation c => some c
  | _ => none

/-- The generation requests of a remote-call trace, in dispatch order. -/
def genCallsOf (trace : List RemoteCall) : List GenCall :=
  trace.filterMap toGenCall

/-- The analysis-derived description grounding a non-per-image batch: that of
the primary image (first labelled "Front View", else the first image). -/
def primaryDescr (apiKey : List Char)
    (ana : Nat → Nat → Except ErrVal AnalysisResult)
    (imgs : List SourceImage) : List Char :=
  match primaryOf imgs with
  | some p => (analyzeProductFeatures apiKey ana p.file).1.description
  | none => []

/-- A generation response whose single candidate carries one inline image. -/
def okResp : GenResponse := ⟨[⟨some [⟨none, some (s "IMG")⟩]⟩]⟩

/-- A generation oracle that always answers with `okResp`. -/
def genOK : GenCall → Nat → Except ErrVal GenResponse :=
  fun _ _ => Except.ok okResp

/-- An analysis oracle that always succeeds with description `desc`, stem `nm`. -/
def anaOK : Nat → Nat → Except ErrVal AnalysisResult :=
  fun _ _ => Except.ok ⟨s "desc", s "nm"⟩

/-- An analysis oracle whose result depends on the analysed file: description
`A` for file 0, `B` for any other file. -/
def anaByFile : Nat → Nat → Except ErrVal AnalysisResult :=
  fun f _ => if f = 0 then Except.ok ⟨s "A", s "n"⟩ else Except.ok ⟨s "B", s "n"⟩

/-- The "no candidates" terminal error of the generation adapter. -/
def noCandErr : ErrVal := ⟨none, s "No candidates returned from the model."⟩

/-- The "no image" terminal error of the generation adapter. -/
def noImgErr : ErrVal := ⟨none, s "No image generated."⟩

/-- The text-only-response error of the generation adapter, embedding the
first 150 characters of the returned text. -/
def textErr (t : List Char) : ErrVal :=
  ⟨none, s "Model returned text instead of image: " ++ t.take 150 ++ s "..."⟩

/-- A text-only response whose text is the word `quota`. -/
def rQuota : GenResponse := ⟨[⟨some [⟨some (s "quota"), none⟩]⟩]⟩

/-- A text-only response whose text is the word `Hello`. -/
def rHello : GenResponse := ⟨[⟨some [⟨some (s "Hello"), none⟩]⟩]⟩

theorem containsSub_iff (h n : List Char) : containsSub h n = true ↔ n <:+: h := by
  induction h with
  | nil =>
    simp [containsSub, List.isPrefixOf_iff_prefix, List.infix_nil]
  | cons c t ih =>
    simp [containsSub, List.isPrefixOf_iff_prefix, ih, List.infix_cons_iff]

theorem runRetryGo_transient {α : Type} (e : Nat → ErrVal)
    (he : ∀ i, isTransientErr (e i) = true) (retries : Nat) :
    ∀ rl i, runRetryGo (α := α) (fun j => Except.error (e j)) retries i rl =
      ⟨Except.error (e (i + rl)), rl + 1, transientTrace retries i rl⟩ := by
  intro rl
  induction rl with
  | zero =>
    intro i
    simp [runRetryGo, transientTrace]
  | succ n ih =>
    intro i
    have harith : i + 1 + n = i + (n + 1) := by omega
    simp only [runRetryGo, he, if_true, ih (i + 1), transientTrace, harith]

theorem runRetryGo_first_ok {α : Type} (op : Nat → Except ErrVal α) (v : α)
    (retries i rl : Nat) (h : op i = Except.ok v) :
    runRetryGo op retries i rl = ⟨Except.ok v, 1, []⟩ := by
  cases rl <;> simp [runRetryGo, h]

theorem runRetryGo_always_error {α : Type} (g : Nat → ErrVal) (retries : Nat) :
    ∀ rl i, ∃ k, (runRetryGo (α := α) (fun j => Except.error (g j)) retries i rl).result
      = Except.error (g k) := by
  intro rl
  induction rl with
  | zero => intro i; exact ⟨i, rfl⟩
  | succ n ih =>
    intro i
    by_cases ht : isTransientErr (g i) = true
    · obtain ⟨k, hk⟩ := ih (i + 1)
      exact ⟨k, by simp [runRetryGo, ht, hk]⟩
    · exact ⟨i, by simp [runRetryGo, ht]⟩

/-- C1: an operation failing on every invocation with a transient-classified
error, run under `runWithRetry` with the default `maxAttempts = 10`, is
invoked exactly 11 times; the trace contains exactly 10 backoff waits, each of
the fixed 10000 ms and each immediately preceded by a status-sink update; and
the last error (that of the 11th invocation, rethrown once the attempt
counter exceeds `maxAttempts` even though its class is transient) propagates. -/
theorem runWithRetry_transient_exhaustion (e : Nat → ErrVal)
    (he : ∀ i, isTransientErr (e i) = true) :
    (runWithRetry (α := Unit) (fun j => Except.error (e j)) 10).calls = 11 ∧
    (runWithRetry (α := Unit) (fun j => Except.error (e j)) 10).result = Except.error (e 10) ∧
    countWaits (runWithRetry (α := Unit) (fun j => Except.error (e j)) 10).events = 10 ∧
    waitsPreceded (runWithRetry (α := Unit) (fun j => Except.error (e j)) 10).events = true ∧
    allWaitsTenSeconds (runWithRetry (α := Unit) (fun j => Except.error (e j)) 10).events = true := by
  have h := runRetryGo_transient (α := Unit) e he 10 10 0
  unfold runWithRetry
  rw [h]
  refine ⟨rfl, rfl, ?_, ?_, ?_⟩
  · show countWaits (transientTrace 10 0 10) = 10
    decide
  · show waitsPreceded (transientTrace 10 0 10) = true
    decide
  · show allWaitsTenSeconds (transientTrace 10 0 10) = true
    decide

/-- Witness for C1 at the concrete always-429 operation. -/
theorem runWithRetry_transient_exhaustion_witness :
    (runWithRetry (α := Unit) (fun _ => Except.error err429) 10).calls = 11 ∧
    (runWithRetry (α := Unit) (fun _ => Except.error err429) 10).result = Except.error err429 ∧
    countWaits (runWithRetry (α := Unit) (fun _ => Except.error err429) 10).events = 10 ∧
    waitsPreceded (runWithRetry (α := Unit) (fun _ => Except.error err429) 10).events = true ∧
    allWaitsTenSeconds (runWithRetry (α := Unit) (fun _ => Except.error err429) 10).events = true :=
  runWithRetry_transient_exhaustion (fun _ => err429) (fun _ => rfl)

/-- C4: an operation whose first invocation fails with a terminal-classified
error is not re-invoked: the error is rethrown immediately, with an empty
trace (zero backoff waits and zero status-sink updates) and exactly one
invocation. -/
theorem runWithRetry_terminal_immediate {α : Type} (op : Nat → Except ErrVal α)
    (e : ErrVal) (h0 : op 0 = Except.error e) (ht : isTransientErr e = false) :
    runWithRetry op 10 = ⟨Except.error e, 1, []⟩ := by
  unfold runWithRetry
  simp [runRetryGo, h0, ht]

/-- Witness for C4 at a concrete terminal (status 400) error. -/
theorem runWithRetry_terminal_immediate_witness :
    runWithRetry (α := Unit) (fun _ => Except.error err400) 10
      = ⟨Except.error err400, 1, []⟩ :=
  runWithRetry_terminal_immediate (fun _ => Except.error err400) err400 rfl (by decide)

theorem seqExcept_map_ok {α β : Type} (f : β → α) :
    ∀ l : List β, seqExcept (l.map fun a => Except.ok (f a)) = Except.ok (l.map f) := by
  intro l
  induction l with
  | nil => rfl
  | cons x t ih => simp [seqExcept, ih]

theorem seqExcept_map_const_error {α β : Type} (e : ErrVal) (f : β → Except ErrVal α)
    (hf : ∀ a, f a = Except.error e) :
    ∀ l : List β, l ≠ [] → seqExcept (l.map f) = Except.error e := by
  intro l hne
  cases l with
  | nil => exact absurd rfl hne
  | cons x t => simp [seqExcept, hf x]

theorem flatten_map_nil {α β : Type} (l : List β) :
    (l.map fun _ => ([] : List α)).flatten = [] := by
  induction l with
  | nil => rfl
  | cons x t ih => simp [ih]

theorem primaryOf_cons (x : SourceImage) (t : List SourceImage) :
    ∃ p, primaryOf (x :: t) = some p := by
  unfold primaryOf
  cases h : List.find? (fun i => decide (i.label = s "Front View")) (x :: t) with
  | some p => exact ⟨p, by simp [Option.orElse, h]⟩
  | none => exact ⟨x, by simp [Option.orElse, h]⟩

theorem anglesToGenerate_ne_nil (targetAngles : Option (List (List Char))) :
    (match targetAngles with
     | some l => if l = [] then defaultAngles else l
     | none => defaultAngles) ≠ [] := by
  match targetAngles with
  | none => decide
  | some l =>
    by_cases h : l = []
    · simp [h]; decide
    · simp [h]

theorem genCallsOf_analyze (apiKey : List Char)
    (ana : Nat → Nat → Except ErrVal AnalysisResult) (f : Nat) :
    genCallsOf (analyzeProductFeatures apiKey ana f).2 = [] := by
  by_cases h : apiKey = [] <;>
    simp only [analyzeProductFeatures, h, if_true, if_false, reduceIte] <;>
    first
      | rfl
      | cases (runWithRetry (ana f) 10).result <;> rfl

theorem genCallsOf_callGen (apiKey : List Char)
    (gen : GenCall → Nat → Except ErrVal GenResponse) (c : GenCall) :
    genCallsOf (callGeminiGenerator apiKey gen c).2
      = if apiKey = [] then [] else [c] := by
  by_cases h : apiKey = [] <;> simp [callGeminiGenerator, h, genCallsOf, toGenCall]

theorem genCallsOf_append (t₁ t₂ : List RemoteCall) :
    genCallsOf (t₁ ++ t₂) = genCallsOf t₁ ++ genCallsOf t₂ := by
  simp [genCallsOf]

/-- Every generation request of a `ghostUnit` trace satisfies `p` as soon as
`p` holds of its (single, 3:4-aspect) request. -/
theorem genCallsOf_ghostUnit_all (p : GenCall → Bool)
    (hp : ∀ parts quality, p ⟨parts, quality, s "3:4"⟩ = true)
    (ana : Nat → Nat → Except ErrVal AnalysisResult)
    (gen : GenCall → Nat → Except ErrVal GenResponse)
    (apiKey customPrompt imageQuality : List Char) (useRef : Bool)
    (refData selBT : List Char) (img : SourceImage) :
    (genCallsOf (ghostUnit ana gen apiKey customPrompt imageQuality useRef
      refData selBT img).2).all p = true := by
  unfold ghostUnit
  simp only [genCallsOf_append, genCallsOf_analyze, genCallsOf_callGen,
    List.nil_append, List.all_append]
  by_cases h : apiKey = [] <;> simp [h, hp]

theorem genCallsOf_ghostRun_all (p : GenCall → Bool)
    (hp : ∀ parts quality, p ⟨parts, quality, s "3:4"⟩ = true)
    (ana : Nat → Nat → Except ErrVal AnalysisResult)
    (gen : GenCall → Nat → Except ErrVal GenResponse)
    (apiKey customPrompt imageQuality : List Char) (useRef : Bool)
    (refData selBT : List Char) : ∀ sourceImages : List SourceImage,
    (genCallsOf (ghostRun ana gen apiKey customPrompt imageQuality useRef
      refData selBT sourceImages).2).all p = true := by
  intro l
  induction l with
  | nil => rfl
  | cons x t ih =>
    simp only [ghostRun, List.map_cons, List.flatten_cons, genCallsOf_append,
      List.all_append, Bool.and_eq_true] at ih ⊢
    exact ⟨genCallsOf_ghostUnit_all p hp ana gen apiKey customPrompt
      imageQuality useRef refData selBT x, ih⟩

theorem genCallsOf_anglesUnit_all (p : GenCall → Bool)
    (hp : ∀ parts quality, p ⟨parts, quality, s "3:4"⟩ = true)
    (gen : GenCall → Nat → Except ErrVal GenResponse)
    (apiKey imageQuality : List Char) (contextParts : List Part)
    (pwbt selBT descr fname angle : List Char) :
    (genCallsOf (anglesUnit gen apiKey imageQuality contextParts pwbt selBT
      descr fname angle).2).all p = true := by
  unfold anglesUnit anglesCallOf
  simp only [genCallsOf_callGen]
  by_cases h : apiKey = [] <;> simp [h, hp]

theorem genCallsOf_anglesRun_all (p : GenCall → Bool)
    (hp : ∀ parts quality, p ⟨parts, quality, s "3:4"⟩ = true)
    (gen : GenCall → Nat → Except ErrVal GenResponse)
    (apiKey imageQuality : List Char) (contextParts : List Part)
    (pwbt selBT descr fname : List Char) : ∀ angles : List (List Char),
    (genCallsOf (anglesRun gen apiKey imageQuality contextParts pwbt selBT
      descr fname angles).2).all p = true := by
  intro l
  induction l with
  | nil => rfl
  | cons x t ih =>
    simp only [anglesRun, List.map_cons, List.flatten_cons, genCallsOf_append,
      List.all_append, Bool.and_eq_true] at ih ⊢
    exact ⟨genCallsOf_anglesUnit_all p hp gen apiKey imageQuality contextParts
      pwbt selBT descr fname x, ih⟩

theorem genCallsOf_compositeRun_all (p : GenCall → Bool)
    (hp : ∀ parts quality, p ⟨parts, quality, targetAspect⟩ = true)
    (gen : GenCall → Nat → Except ErrVal GenResponse)
    (apiKey imageQuality : List Char) (presetId : PresetType)
    (contextParts : List Part) (customPrompt selBT : List Char)
    (environment additionalContext : Option (List Char))
    (descr fname : List Char) :
    (genCallsOf (compositeRun gen apiKey imageQuality presetId contextParts
      customPrompt selBT environment additionalContext descr fname
      targetAspect).2).all p = true := by
  unfold compositeRun
  simp only [genCallsOf_callGen]
  by_cases h : apiKey = [] <;> simp [h, hp]

theorem ghostUnit_nokey (ana : Nat → Nat → Except ErrVal AnalysisResult)
    (gen : GenCall → Nat → Except ErrVal GenResponse)
    (customPrompt imageQuality : List Char) (useRef : Bool)
    (refData selBT : List Char) (img : SourceImage) :
    ghostUnit ana gen [] customPrompt imageQuality useRef refData selBT img
      = (Except.error apiKeyErr, []) := rfl

theorem anglesUnit_nokey (gen : GenCall → Nat → Except ErrVal GenResponse)
    (imageQuality : List Char) (contextParts : List Part)
    (pwbt selBT descr fname angle : List Char) :
    anglesUnit gen [] imageQuality contextParts pwbt selBT descr fname angle
      = (Except.error apiKeyErr, []) := rfl

/-- C3 (amended): per-image and per-angle dispatches always pass the fixed
`3:4` aspect ratio; the family/orientation table (`1:1` fixed, `4:3` →
`3:4`/`4:3`, `16:9` → `9:16`/`16:9`) applies only to the LIFESTYLE composite
strategy, and the resolved string is the one passed to every generation
request of the composite run; for the BG_REMOVE_REPAIR composite strategy
`handleProcess` always resolves `1:1` regardless of family and orientation,
and that is what its single generation request carries. -/
theorem aspect_resolution_policy (ana : Nat → Nat → Except ErrVal AnalysisResult)
    (gen : GenCall → Nat → Except ErrVal GenResponse) (imgs : List SourceImage)
    (prompt key quality : List Char) (ref : Option (List Char))
    (angles : Option (List (List Char))) (bt : Option (List Char))
    (aspect : List Char) (env ctx : Option (List Char))
    (fam : List Char) (portrait : Bool) :
    resolveTargetAspect PresetType.LIFESTYLE (s "1:1") portrait = s "1:1" ∧
    resolveTargetAspect PresetType.LIFESTYLE (s "4:3") true = s "3:4" ∧
    resolveTargetAspect PresetType.LIFESTYLE (s "4:3") false = s "4:3" ∧
    resolveTargetAspect PresetType.LIFESTYLE (s "16:9") true = s "9:16" ∧
    resolveTargetAspect PresetType.LIFESTYLE (s "16:9") false = s "16:9" ∧
    resolveTargetAspect PresetType.BG_REMOVE_REPAIR fam portrait = s "1:1" ∧
    ((genCallsOf (processImagesWithGemini ana gen imgs PresetType.GHOST_MANNEQUIN
        prompt key quality ref angles bt aspect env ctx).2).all
      fun c => decide (c.aspect = s "3:4")) = true ∧
    ((genCallsOf (processImagesWithGemini ana gen imgs PresetType.ANGLES
        prompt key quality ref angles bt aspect env ctx).2).all
      fun c => decide (c.aspect = s "3:4")) = true ∧
    ((genCallsOf (processImagesWithGemini ana gen imgs PresetType.LIFESTYLE
        prompt key quality ref angles bt
        (resolveTargetAspect PresetType.LIFESTYLE fam portrait) env ctx).2).all
      fun c => decide (c.aspect = resolveTargetAspect PresetType.LIFESTYLE fam portrait)) = true ∧
    ((genCallsOf (processImagesWithGemini ana gen imgs PresetType.BG_REMOVE_REPAIR
        prompt key quality ref angles bt
        (resolveTargetAspect PresetType.BG_REMOVE_REPAIR fam portrait) env ctx).2).all
      fun c => decide (c.aspect = resolveTargetAspect PresetType.BG_REMOVE_REPAIR fam portrait)) = true := by
  refine ⟨by cases portrait <;> decide, by decide, by decide, by decide, by decide,
    by simp [resolveTargetAspect], ?_, ?_, ?_, ?_⟩
  · simp only [processImagesWithGemini, reduceIte]
    exact genCallsOf_ghostRun_all _ (fun parts q => by simp) ana gen key prompt
      quality _ _ _ imgs
  · cases hpm : primaryOf imgs with
    | none => simp [processImagesWithGemini, hpm, genCallsOf]
    | some pr =>
      simp only [processImagesWithGemini, hpm, reduceCtorEq, reduceIte,
        genCallsOf_append, List.all_append, Bool.and_eq_true, genCallsOf_analyze]
      exact ⟨rfl, genCallsOf_anglesRun_all _ (fun parts q => by simp) gen key
        quality _ _ _ _ _ _⟩
  · cases hpm : primaryOf imgs with
    | none => simp [processImagesWithGemini, hpm, genCallsOf]
    | some pr =>
      simp only [processImagesWithGemini, hpm, reduceCtorEq, reduceIte,
        genCallsOf_append, List.all_append, Bool.and_eq_true, genCallsOf_analyze]
      exact ⟨rfl, genCallsOf_compositeRun_all _ (fun parts q => by simp) gen key
        quality _ _ _ _ _ _ _ _⟩
  · cases hpm : primaryOf imgs with
    | none => simp [processImagesWithGemini, hpm, genCallsOf]
    | some pr =>
      simp only [processImagesWithGemini, hpm, reduceCtorEq, reduceIte,
        genCallsOf_append, List.all_append, Bool.and_eq_true, genCallsOf_analyze]
      exact ⟨rfl, genCallsOf_compositeRun_all _ (fun parts q => by simp) gen key
        quality _ _ _ _ _ _ _ _⟩

/-- C5 (amended): an absent or empty angle selection does not raise a
precondition error; the pipeline behaves exactly as if the default triple
`["Front View", "Side View", "3/4 Perspective View"]` had been selected (for
every strategy, since only the ANGLES branch reads the selection). -/
theorem empty_angles_fallback_default_triple
    (ana : Nat → Nat → Except ErrVal AnalysisResult)
    (gen : GenCall → Nat → Except ErrVal GenResponse) (imgs : List SourceImage)
    (presetId : PresetType) (prompt key quality : List Char)
    (ref : Option (List Char)) (bt : Option (List Char)) (aspect : List Char)
    (env ctx : Option (List Char)) :
    processImagesWithGemini ana gen imgs presetId prompt key quality ref
        none bt aspect env ctx
      = processImagesWithGemini ana gen imgs presetId prompt key quality ref
        (some defaultAngles) bt aspect env ctx
    ∧ processImagesWithGemini ana gen imgs presetId prompt key quality ref
        (some []) bt aspect env ctx
      = processImagesWithGemini ana gen imgs presetId prompt key quality ref
        (some defaultAngles) bt aspect env ctx := by
  constructor <;> simp only [processImagesWithGemini, ite_self, reduceIte]

/-- C6 (amended): for every input with at least one source image and an
empty access credential, the pipeline rejects with the terminal precondition
error "API Key not provided." — thrown by the generation adapter before its
request is built, outside the retry wrapper, hence never retried — and the
remote-call trace is empty: the analysis adapter short-circuits to defaults
without a remote call and no generation request is issued.  (With zero
source images the per-image strategy instead resolves to an empty result
list, still with zero remote calls.) -/
theorem missing_apiKey_rejects_without_remote_calls
    (ana : Nat → Nat → Except ErrVal AnalysisResult)
    (gen : GenCall → Nat → Except ErrVal GenResponse)
    (img : SourceImage) (rest : List SourceImage) (presetId : PresetType)
    (prompt quality : List Char) (ref : Option (List Char))
    (angles : Option (List (List Char))) (bt : Option (List Char))
    (aspect : List Char) (env ctx : Option (List Char)) :
    processImagesWithGemini ana gen (img :: rest) presetId prompt [] quality
        ref angles bt aspect env ctx
      = (Except.error apiKeyErr, []) := by
  have hghost : ∀ useRef refData selBT,
      ghostRun ana gen [] prompt quality useRef refData selBT (img :: rest)
        = (Except.error apiKeyErr, []) := by
    intro useRef refData selBT
    unfold ghostRun
    refine Prod.ext ?_ ?_
    · show seqExcept (((img :: rest).map
        (ghostUnit ana gen [] prompt quality useRef refData selBT)).map Prod.fst)
        = Except.error apiKeyErr
      rw [List.map_map]
      exact seqExcept_map_const_error apiKeyErr _
        (fun a => by simp [Function.comp, ghostUnit_nokey]) _ (by simp)
    · show (((img :: rest).map
        (ghostUnit ana gen [] prompt quality useRef refData selBT)).map Prod.snd).flatten
        = []
      rw [List.map_map]
      have : ((img :: rest).map (Prod.snd ∘ ghostUnit ana gen [] prompt quality
          useRef refData selBT)) = (img :: rest).map (fun _ => []) :=
        List.map_congr_left (fun a _ => by simp [Function.comp, ghostUnit_nokey])
      rw [this, flatten_map_nil]
  have hangles : ∀ contextParts pwbt selBT descr fname l, l ≠ [] →
      anglesRun gen [] quality contextParts pwbt selBT descr fname l
        = (Except.error apiKeyErr, []) := by
    intro contextParts pwbt selBT descr fname l hne
    unfold anglesRun
    refine Prod.ext ?_ ?_
    · show seqExcept ((l.map
        (anglesUnit gen [] quality contextParts pwbt selBT descr fname)).map Prod.fst)
        = Except.error apiKeyErr
      rw [List.map_map]
      exact seqExcept_map_const_error apiKeyErr _
        (fun a => by simp [Function.comp, anglesUnit_nokey]) _ hne
    · show ((l.map
        (anglesUnit gen [] quality contextParts pwbt selBT descr fname)).map Prod.snd).flatten
        = []
      rw [List.map_map]
      have : (l.map (Prod.snd ∘ anglesUnit gen [] quality contextParts pwbt
          selBT descr fname)) = l.map (fun _ => []) :=
        List.map_congr_left (fun a _ => by simp [Function.comp, anglesUnit_nokey])
      rw [this, flatten_map_nil]
  obtain ⟨pr, hpr⟩ := primaryOf_cons img rest
  cases presetId with
  | GHOST_MANNEQUIN =>
    simp only [processImagesWithGemini, reduceIte]
    exact hghost _ _ _
  | ANGLES =>
    simp only [processImagesWithGemini, hpr, reduceCtorEq, reduceIte]
    rw [hangles _ _ _ _ _ _ (anglesToGenerate_ne_nil angles)]
    rfl
  | LIFESTYLE =>
    simp only [processImagesWithGemini, hpr, reduceCtorEq, reduceIte]
    rfl
  | BG_REMOVE_REPAIR =>
    simp only [processImagesWithGemini, hpr, reduceCtorEq, reduceIte]
    rfl

theorem suffix_ext {x y : List Char} (z : List Char) (h : x <:+ y) :
    x <:+ z ++ y := by
  obtain ⟨t, rfl⟩ := h
  exact ⟨z ++ t, by simp⟩

theorem taskText_concat (ps : List Part) (t q a : List Char) :
    taskTextOf ⟨ps ++ [Part.text t], q, a⟩ = t := by
  simp [taskTextOf]

theorem anglesUnit_task_all (gen : GenCall → Nat → Except ErrVal GenResponse)
    (apiKey imageQuality : List Char) (contextParts : List Part)
    (pwbt selBT descr fname angle : List Char) :
    (genCallsOf (anglesUnit gen apiKey imageQuality contextParts pwbt selBT
        descr fname angle).2).all
      (fun c => decide ((preserveMarker ++ descr) <:+ taskTextOf c)) = true := by
  unfold anglesUnit
  simp only [genCallsOf_callGen]
  by_cases h : apiKey = []
  · simp [h]
  · simp only [h, reduceIte, List.all_cons, List.all_nil, Bool.and_true]
    rw [decide_eq_true_eq]
    unfold anglesCallOf
    rw [taskText_concat]
    simp only [List.append_assoc]
    repeat first
      | exact List.suffix_refl _
      | apply suffix_ext

theorem anglesRun_task_all (gen : GenCall → Nat → Except ErrVal GenResponse)
    (apiKey imageQuality : List Char) (contextParts : List Part)
    (pwbt selBT descr fname : List Char) : ∀ angles : List (List Char),
    (genCallsOf (anglesRun gen apiKey imageQuality contextParts pwbt selBT
        descr fname angles).2).all
      (fun c => decide ((preserveMarker ++ descr) <:+ taskTextOf c)) = true := by
  intro l
  induction l with
  | nil => rfl
  | cons x t ih =>
    simp only [anglesRun, List.map_cons, List.flatten_cons, genCallsOf_append,
      List.all_append, Bool.and_eq_true] at ih ⊢
    exact ⟨anglesUnit_task_all gen apiKey imageQuality contextParts pwbt selBT
      descr fname x, ih⟩

theorem compositeRun_task_all_lifestyle
    (gen : GenCall → Nat → Except ErrVal GenResponse)
    (apiKey imageQuality : List Char) (contextParts : List Part)
    (customPrompt selBT : List Char) (env ctx : Option (List Char))
    (descr fname ta : List Char) :
    (genCallsOf (compositeRun gen apiKey imageQuality PresetType.LIFESTYLE
        contextParts customPrompt selBT env ctx descr fname ta).2).all
      (fun c => decide ((lifestyleMarker ++ descr) <:+ taskTextOf c)) = true := by
  unfold compositeRun
  simp only [genCallsOf_callGen, reduceIte]
  by_cases h : apiKey = []
  · simp [h]
  · simp only [h, reduceIte, List.all_cons, List.all_nil, Bool.and_true]
    rw [decide_eq_true_eq, taskText_concat]
    simp only [List.append_assoc]
    repeat first
      | exact List.suffix_refl _
      | apply suffix_ext

theorem compositeRun_task_all_bg
    (gen : GenCall → Nat → Except ErrVal GenResponse)
    (apiKey imageQuality : List Char) (contextParts : List Part)
    (customPrompt selBT : List Char) (env ctx : Option (List Char))
    (descr fname ta : List Char) :
    (genCallsOf (compositeRun gen apiKey imageQuality PresetType.BG_REMOVE_REPAIR
        contextParts customPrompt selBT env ctx descr fname ta).2).all
      (fun c => decide ((preserveMarker ++ descr) <:+ taskTextOf c)) = true := by
  unfold compositeRun
  simp only [genCallsOf_callGen, reduceCtorEq, reduceIte]
  by_cases h : apiKey = []
  · simp [h]
  · simp only [h, reduceIte, List.all_cons, List.all_nil, Bool.and_true]
    rw [decide_eq_true_eq, taskText_concat]
    simp only [List.append_assoc]
    repeat first
      | exact List.suffix_refl _
      | apply suffix_ext

/-- C2 (amended): for the per-angle strategy and both single-composite
strategies, every generation request of one logical request carries the same
analysis-derived product description — the one obtained from the single
analysis of the primary image — as a suffix of its instruction text, behind
the identity-preservation marker (the compositor marker for LIFESTYLE).  For
the per-image strategy this does not hold: each unit is grounded by its own
image's analysis, which may differ across units (see the counterexample). -/
theorem analysis_description_shared_within_batch
    (ana : Nat → Nat → Except ErrVal AnalysisResult)
    (gen : GenCall → Nat → Except ErrVal GenResponse) (imgs : List SourceImage)
    (prompt key quality : List Char) (ref : Option (List Char))
    (angles : Option (List (List Char))) (bt : Option (List Char))
    (aspect : List Char) (env ctx : Option (List Char)) :
    ((genCallsOf (processImagesWithGemini ana gen imgs PresetType.ANGLES
        prompt key quality ref angles bt aspect env ctx).2).all
      fun c => decide ((preserveMarker ++ primaryDescr key ana imgs) <:+ taskTextOf c)) = true ∧
    ((genCallsOf (processImagesWithGemini ana gen imgs PresetType.LIFESTYLE
        prompt key quality ref angles bt aspect env ctx).2).all
      fun c => decide ((lifestyleMarker ++ primaryDescr key ana imgs) <:+ taskTextOf c)) = true ∧
    ((genCallsOf (processImagesWithGemini ana gen imgs PresetType.BG_REMOVE_REPAIR
        prompt key quality ref angles bt aspect env ctx).2).all
      fun c => decide ((preserveMarker ++ primaryDescr key ana imgs) <:+ taskTextOf c)) = true := by
  refine ⟨?_, ?_, ?_⟩
  · cases hpm : primaryOf imgs with
    | none => simp [processImagesWithGemini, hpm, genCallsOf]
    | some pr =>
      simp only [processImagesWithGemini, hpm, reduceCtorEq, reduceIte,
        genCallsOf_append, List.all_append, Bool.and_eq_true,
        genCallsOf_analyze, primaryDescr]
      exact ⟨rfl, anglesRun_task_all gen key quality _ _ _ _ _ _⟩
  · cases hpm : primaryOf imgs with
    | none => simp [processImagesWithGemini, hpm, genCallsOf]
    | some pr =>
      simp only [processImagesWithGemini, hpm, reduceCtorEq, reduceIte,
        genCallsOf_append, List.all_append, Bool.and_eq_true,
        genCallsOf_analyze, primaryDescr]
      exact ⟨rfl, compositeRun_task_all_lifestyle gen key quality _ prompt _
        env ctx _ _ aspect⟩
  · cases hpm : primaryOf imgs with
    | none => simp [processImagesWithGemini, hpm, genCallsOf]
    | some pr =>
      simp only [processImagesWithGemini, hpm, reduceCtorEq, reduceIte,
        genCallsOf_append, List.all_append, Bool.and_eq_true,
        genCallsOf_analyze, primaryDescr]
      exact ⟨rfl, compositeRun_task_all_bg gen key quality _ prompt _
        env ctx _ _ aspect⟩

/-- C2 counterexample: a per-image (GHOST_MANNEQUIN) batch of two images whose
analyses differ injects description `A` into the first generation request and
description `B` into the second, so the generation units of this single
logical request do not carry the same analysis-derived product description. -/
theorem perImage_description_not_shared_cex :
    ((genCallsOf (processImagesWithGemini anaByFile genOK
        [⟨s "Front View", 0⟩, ⟨s "Back View", 1⟩] PresetType.GHOST_MANNEQUIN
        (s "P") (s "k") (s "1K") none none none (s "1:1") none none).2).map
      fun c => decide ((preserveMarker ++ s "A") <:+ taskTextOf c)) = [true, false] ∧
    ((genCallsOf (processImagesWithGemini anaByFile genOK
        [⟨s "Front View", 0⟩, ⟨s "Back View", 1⟩] PresetType.GHOST_MANNEQUIN
        (s "P") (s "k") (s "1K") none none none (s "1:1") none none).2).map
      fun c => decide ((preserveMarker ++ s "B") <:+ taskTextOf c)) = [false, true] := by
  constructor
  · decide
  · decide

/-- C3 counterexample: for the composite BG_REMOVE_REPAIR strategy the ratio
family `4:3` with landscape orientation does not resolve to `4:3` as the
claim states: `handleProcess` resolves `1:1`, and that is the literal ratio
its single generation request carries. -/
theorem composite_aspect_resolution_cex :
    resolveTargetAspect PresetType.BG_REMOVE_REPAIR (s "4:3") false = s "1:1" ∧
    s "1:1" ≠ s "4:3" ∧
    ((genCallsOf (processImagesWithGemini anaOK genOK [⟨s "Front View", 0⟩]
        PresetType.BG_REMOVE_REPAIR (s "P") (s "k") (s "1K") none none none
        (resolveTargetAspect PresetType.BG_REMOVE_REPAIR (s "4:3") false)
        none none).2).map GenCall.aspect) = [s "1:1"] := by
  refine ⟨by decide, by decide, by decide⟩

/-- C5 counterexample: an ANGLES request with an explicitly empty angle
selection does not reject with a precondition error before any remote call:
it succeeds with the three default-angle results, after one analysis call and
three generation calls. -/
theorem empty_angles_no_precondition_error_cex :
    (processImagesWithGemini anaOK genOK [⟨s "Front View", 0⟩] PresetType.ANGLES
        (s "P") (s "k") (s "1K") none (some []) none (s "1:1") none none).1
      = Except.ok
        [⟨s "data:image/png;base64,IMG", s "nm-front"⟩,
         ⟨s "data:image/png;base64,IMG", s "nm-side"⟩,
         ⟨s "data:image/png;base64,IMG", s "nm-3/4"⟩] ∧
    (processImagesWithGemini anaOK genOK [⟨s "Front View", 0⟩] PresetType.ANGLES
        (s "P") (s "k") (s "1K") none (some []) none (s "1:1") none none).2.length
      = 4 := by
  constructor
  · decide
  · decide

/-- C6 counterexample: with an empty credential but zero source images, the
per-image strategy resolves successfully to an empty result list instead of
rejecting with a precondition error (the claim fails for this input; with at
least one source image it holds, see the amended theorem). -/
theorem empty_key_empty_images_resolves_cex :
    processImagesWithGemini anaOK genOK [] PresetType.GHOST_MANNEQUIN (s "P")
        [] (s "1K") none none none (s "1:1") none none
      = (Except.ok [], []) := by
  decide

theorem anglesUnit_ok (gen : GenCall → Nat → Except ErrVal GenResponse)
    (u : GenCall → List Char) (apiKey imageQuality : List Char)
    (cps : List Part) (pwbt selBT descr fname angle : List Char)
    (hkey : apiKey ≠ [])
    (hg : ∀ c i, genStep gen c i = Except.ok (u c)) :
    anglesUnit gen apiKey imageQuality cps pwbt selBT descr fname angle
      = (Except.ok ⟨u (anglesCallOf imageQuality cps pwbt selBT descr angle),
          fname ++ s "-" ++ jsAngleSuffix angle⟩,
         [RemoteCall.generation (anglesCallOf imageQuality cps pwbt selBT descr angle)]) := by
  unfold anglesUnit callGeminiGenerator runWithRetry
  have hr := runRetryGo_first_ok
    (genStep gen (anglesCallOf imageQuality cps pwbt selBT descr angle))
    (u (anglesCallOf imageQuality cps pwbt selBT descr angle)) 10 0 10 (hg _ 0)
  simp only [if_neg hkey, hr]
  rfl

theorem anglesRun_ok (gen : GenCall → Nat → Except ErrVal GenResponse)
    (u : GenCall → List Char) (apiKey imageQuality : List Char)
    (cps : List Part) (pwbt selBT descr fname : List Char)
    (hkey : apiKey ≠ [])
    (hg : ∀ c i, genStep gen c i = Except.ok (u c)) :
    ∀ angles : List (List Char),
    (anglesRun gen apiKey imageQuality cps pwbt selBT descr fname angles).1
      = Except.ok (angles.map fun a =>
          ⟨u (anglesCallOf imageQuality cps pwbt selBT descr a),
           fname ++ s "-" ++ jsAngleSuffix a⟩) := by
  intro l
  show seqExcept ((l.map (anglesUnit gen apiKey imageQuality cps pwbt selBT
      descr fname)).map Prod.fst) = _
  rw [List.map_map]
  have hcong : l.map (Prod.fst ∘ anglesUnit gen apiKey imageQuality cps pwbt
      selBT descr fname) = l.map (fun a => Except.ok
        (⟨u (anglesCallOf imageQuality cps pwbt selBT descr a),
          fname ++ s "-" ++ jsAngleSuffix a⟩ : ProcessedImage)) :=
    List.map_congr_left fun a _ => by
      simp [Function.comp, anglesUnit_ok gen u apiKey imageQuality cps pwbt
        selBT descr fname a hkey hg]
  rw [hcong, seqExcept_map_ok]

/-- C7 (amended): for every non-empty angle list, a successful per-angle
(ANGLES) batch with a non-empty credential returns exactly one result per
angle, in angle order; the i-th filename is the analysis-derived stem
followed by `-` and the prefix of the i-th angle label up to the first space
character, lower-cased, with every maximal whitespace run replaced by a
single hyphen (the claim's "first whitespace-separated word" reading fails
for labels whose first space-delimited token contains other whitespace, see
the counterexample). -/
theorem perAngle_results_order_and_filenames
    (ana : Nat → Nat → Except ErrVal AnalysisResult)
    (gen : GenCall → Nat → Except ErrVal GenResponse)
    (u : GenCall → List Char) (imgs : List SourceImage) (p : SourceImage)
    (angles : List (List Char)) (prompt key quality : List Char)
    (ref : Option (List Char)) (bt : Option (List Char)) (aspect : List Char)
    (env ctx : Option (List Char))
    (hkey : key ≠ []) (hpm : primaryOf imgs = some p) (hne : angles ≠ [])
    (hg : ∀ c i, genStep gen c i = Except.ok (u c)) :
    ∃ rs, (processImagesWithGemini ana gen imgs PresetType.ANGLES prompt key
        quality ref (some angles) bt aspect env ctx).1 = Except.ok rs
      ∧ rs.length = angles.length
      ∧ rs.map ProcessedImage.filename = angles.map (fun a =>
          (analyzeProductFeatures key ana p.file).1.filename ++ s "-"
            ++ jsAngleSuffix a) := by
  simp only [processImagesWithGemini, hpm, reduceCtorEq, reduceIte, if_neg hne]
  rw [anglesRun_ok gen u key quality _ _ _ _ _ hkey hg angles]
  refine ⟨_, rfl, by simp, ?_⟩
  simp [List.map_map, Function.comp]

/-- Witness for C7: one image, angle list `["X"]`, always-succeeding oracles;
the single result carries filename `nm-x`. -/
theorem perAngle_results_order_and_filenames_witness :
    ∃ rs, (processImagesWithGemini anaOK genOK [⟨s "Front View", 0⟩]
        PresetType.ANGLES (s "P") (s "k") (s "1K") none (some [s "X"]) none
        (s "1:1") none none).1 = Except.ok rs
      ∧ rs.length = ([s "X"] : List (List Char)).length
      ∧ rs.map ProcessedImage.filename = ([s "X"] : List (List Char)).map (fun a =>
          (analyzeProductFeatures (s "k") anaOK
            (⟨s "Front View", 0⟩ : SourceImage).file).1.filename ++ s "-"
            ++ jsAngleSuffix a) :=
  perAngle_results_order_and_filenames anaOK genOK
    (fun _ => s "data:image/png;base64," ++ s "IMG") [⟨s "Front View", 0⟩]
    ⟨s "Front View", 0⟩ [s "X"] (s "P") (s "k") (s "1K") none none (s "1:1")
    none none (by decide) (by decide) (by decide) (fun c i => rfl)

/-- C7 counterexample: for the angle label `A\tB` (tab inside the first
space-delimited token) the produced filename is `nm-a-b` — the whole token
lower-cased with the tab turned into a hyphen — and not `nm-a`, the stem
followed by the first whitespace-separated word. -/
theorem angle_suffix_whitespace_cex :
    (processImagesWithGemini anaOK genOK [⟨s "Front View", 0⟩]
        PresetType.ANGLES (s "P") (s "k") (s "1K") none (some [s "A\tB"]) none
        (s "1:1") none none).1
      = Except.ok [⟨s "data:image/png;base64,IMG", s "nm-a-b"⟩]
    ∧ s "nm-a-b" ≠ s "nm-a" := by
  constructor
  · decide
  · decide

theorem runRetryGo_const_error_result {α : Type} (e : ErrVal) (retries : Nat) :
    ∀ rl i, (runRetryGo (α := α) (fun _ => Except.error e) retries i rl).result
      = Except.error e := by
  intro rl
  induction rl with
  | zero => intro i; rfl
  | succ n ih =>
    intro i
    by_cases ht : isTransientErr e = true <;> simp [runRetryGo, ht, ih]

/-- C8 (amended): the generation adapter classifies a response with no
candidate as the terminal "no candidates" error; a response with a usable
inline image part as success returning that image as a data URL; a text-only
response as an error embedding the first 150 characters of the text — this
error is the final outcome of the retried call (so the batch rejects with a
message containing the prefix of the model's text), and it propagates
immediately with no retry whenever its message is not transient-classified
(which fails when the embedded text itself contains `429`, `503` or `quota`,
see the counterexample); and a response with neither as the terminal "no
image generated" error. -/
theorem generator_response_classification (r : GenResponse) (c : Candidate)
    (t d : List Char) :
    (r.candidates.head? = none → extractImage r = Except.error noCandErr)
    ∧ (r.candidates.head? = some c → firstInline (c.parts.getD []) = some d →
        extractImage r = Except.ok (s "data:image/png;base64," ++ d))
    ∧ (r.candidates.head? = some c → firstInline (c.parts.getD []) = none →
        responseText r = t → t ≠ [] →
        extractImage r = Except.error (textErr t)
        ∧ t.take 150 <:+: (textErr t).msg
        ∧ (runWithRetry (fun _ => extractImage r) 10).result
            = Except.error (textErr t)
        ∧ (isTransientErr (textErr t) = false →
            runWithRetry (fun _ => extractImage r) 10
              = ⟨Except.error (textErr t), 1, []⟩))
    ∧ (r.candidates.head? = some c → firstInline (c.parts.getD []) = none →
        responseText r = [] → extractImage r = Except.error noImgErr) := by
  refine ⟨?_, ?_, ?_, ?_⟩
  · intro h1
    simp [extractImage, h1, noCandErr]
  · intro h1 h2
    simp [extractImage, h1, h2]
  · intro h1 h2 h3 h4
    have hx : extractImage r = Except.error (textErr t) := by
      simp [extractImage, h1, h2, h3, h4, textErr]
    refine ⟨hx, ?_, ?_, ?_⟩
    · exact List.infix_append _ _ _
    · simp only [hx, runWithRetry]
      exact runRetryGo_const_error_result (textErr t) 10 10 0
    · intro ht
      simp [runWithRetry, runRetryGo, hx, ht]
  · intro h1 h2 h3
    simp [extractImage, h1, h2, h3, noImgErr]

/-- Witness for C8 at the concrete text-only response `Hello`: the adapter
raises the embedding error, the retried call ends in that error, and since
`Hello` carries no transient marker the error propagates immediately with an
empty trace. -/
theorem generator_response_classification_witness :
    extractImage rHello = Except.error (textErr (s "Hello"))
    ∧ (s "Hello").take 150 <:+: (textErr (s "Hello")).msg
    ∧ (runWithRetry (fun _ => extractImage rHello) 10).result
        = Except.error (textErr (s "Hello"))
    ∧ (isTransientErr (textErr (s "Hello")) = false →
        runWithRetry (fun _ => extractImage rHello) 10
          = ⟨Except.error (textErr (s "Hello")), 1, []⟩) :=
  (generator_response_classification rHello ⟨some [⟨some (s "Hello"), none⟩]⟩
    (s "Hello") []).2.2.1 rfl rfl (by decide) (by decide)

/-- C8 counterexample: for a text-only response whose text contains `quota`,
the raised error is not terminal: its message contains `quota`, so the retry
controller classifies it as transient and performs the full 10 backoff waits
and 11 invocations before the error propagates — the claim's "terminal error"
fails for this response. -/
theorem text_response_quota_not_terminal_cex :
    extractImage rQuota = Except.error (textErr (s "quota"))
    ∧ isTransientErr (textErr (s "quota")) = true
    ∧ (runWithRetry (fun _ => extractImage rQuota) 10).calls = 11
    ∧ countWaits (runWithRetry (fun _ => extractImage rQuota) 10).events = 10 := by
  refine ⟨by decide, by decide, by decide, by decide⟩

theorem analyze_error_eq_default (key : List Char) (e : Nat → Nat → ErrVal)
    (f : Nat) :
    analyzeProductFeatures key (fun f2 i => Except.error (e f2 i)) f
      = analyzeProductFeatures key
          (fun _ _ => Except.ok ⟨[], s "processed-product"⟩) f := by
  by_cases h : key = []
  · simp [analyzeProductFeatures, h]
  · obtain ⟨k, hk⟩ := runRetryGo_always_error (e f) 10 10 0
    have hok := runRetryGo_first_ok
      (fun _ => Except.ok (⟨[], s "processed-product"⟩ : AnalysisResult))
      ⟨[], s "processed-product"⟩ 10 0 10 rfl
    simp only [analyzeProductFeatures, if_neg h, runWithRetry]
    rw [hk, hok]

theorem ghostRun_ana_ext (ana1 ana2 : Nat → Nat → Except ErrVal AnalysisResult)
    (gen : GenCall → Nat → Except ErrVal GenResponse)
    (apiKey customPrompt imageQuality : List Char) (useRef : Bool)
    (refData selBT : List Char) (imgs : List SourceImage)
    (h : ∀ f, analyzeProductFeatures apiKey ana1 f
      = analyzeProductFeatures apiKey ana2 f) :
    ghostRun ana1 gen apiKey customPrompt imageQuality useRef refData selBT imgs
      = ghostRun ana2 gen apiKey customPrompt imageQuality useRef refData selBT imgs := by
  unfold ghostRun
  have hm : imgs.map (ghostUnit ana1 gen apiKey customPrompt imageQuality
      useRef refData selBT) = imgs.map (ghostUnit ana2 gen apiKey customPrompt
      imageQuality useRef refData selBT) :=
    List.map_congr_left fun a _ => by unfold ghostUnit; rw [h a.file]
  rw [hm]

theorem pipeline_ana_ext (ana1 ana2 : Nat → Nat → Except ErrVal AnalysisResult)
    (gen : GenCall → Nat → Except ErrVal GenResponse)
    (imgs : List SourceImage) (presetId : PresetType)
    (prompt key quality : List Char) (ref : Option (List Char))
    (angles : Option (List (List Char))) (bt : Option (List Char))
    (aspect : List Char) (env ctx : Option (List Char))
    (h : ∀ f, analyzeProductFeatures key ana1 f
      = analyzeProductFeatures key ana2 f) :
    processImagesWithGemini ana1 gen imgs presetId prompt key quality ref
        angles bt aspect env ctx
      = processImagesWithGemini ana2 gen imgs presetId prompt key quality ref
        angles bt aspect env ctx := by
  by_cases hp : presetId = PresetType.GHOST_MANNEQUIN
  · simp only [processImagesWithGemini, hp, reduceIte]
    exact ghostRun_ana_ext ana1 ana2 gen key prompt quality _ _ _ imgs h
  · simp only [processImagesWithGemini, if_neg hp]
    simp only [h]

/-- C9: with a non-empty credential, when the retried analysis call ends in
an error (remote failure after exhausting retries, or a malformed-JSON parse
failure — both are error outcomes of the analysis oracle), the analysis
adapter returns the empty description and the generic `processed-product`
stem instead of propagating; consequently a pipeline run whose analysis
oracle always fails behaves exactly like one whose analysis returns those
defaults — an analysis failure never fails a batch and generation always
proceeds. -/
theorem analysis_failure_degrades_gracefully
    (ana : Nat → Nat → Except ErrVal AnalysisResult) (er : ErrVal)
    (e : Nat → Nat → ErrVal) (gen : GenCall → Nat → Except ErrVal GenResponse)
    (key : List Char) (f : Nat) (imgs : List SourceImage)
    (presetId : PresetType) (prompt quality : List Char)
    (ref : Option (List Char)) (angles : Option (List (List Char)))
    (bt : Option (List Char)) (aspect : List Char)
    (env ctx : Option (List Char))
    (hkey : key ≠ [])
    (hfail : (runWithRetry (ana f) 10).result = Except.error er) :
    analyzeProductFeatures key ana f
      = (⟨[], s "processed-product"⟩, [RemoteCall.analysis f])
    ∧ processImagesWithGemini (fun f2 i => Except.error (e f2 i)) gen imgs
        presetId prompt key quality ref angles bt aspect env ctx
      = processImagesWithGemini (fun _ _ => Except.ok ⟨[], s "processed-product"⟩)
        gen imgs presetId prompt key quality ref angles bt aspect env ctx := by
  constructor
  · simp [analyzeProductFeatures, if_neg hkey, hfail]
  · exact pipeline_ana_ext _ _ gen imgs presetId prompt key quality ref angles
      bt aspect env ctx (fun f2 => analyze_error_eq_default key e f2)

/-- Witness for C9: a concrete always-failing analysis oracle (terminal
status 400) degrades to the generic stem, and the LIFESTYLE pipeline run with
it equals the run with the default-returning oracle. -/
theorem analysis_failure_degrades_gracefully_witness :
    analyzeProductFeatures (s "k") (fun _ _ => Except.error err400) 0
      = (⟨[], s "processed-product"⟩, [RemoteCall.analysis 0])
    ∧ processImagesWithGemini (fun _ _ => Except.error err400) genOK
        [⟨s "Front View", 0⟩] PresetType.LIFESTYLE (s "P") (s "k") (s "1K")
        none none none (s "1:1") none none
      = processImagesWithGemini (fun _ _ => Except.ok ⟨[], s "processed-product"⟩)
        genOK [⟨s "Front View", 0⟩] PresetType.LIFESTYLE (s "P") (s "k")
        (s "1K") none none none (s "1:1") none none :=
  analysis_failure_degrades_gracefully (fun _ _ => Except.error err400) err400
    (fun _ _ => err400) genOK (s "k") 0 [⟨s "Front View", 0⟩]
    PresetType.LIFESTYLE (s "P") (s "1K") none none none (s "1:1") none none
    (by decide) (by decide)

theorem replaceFirst_at_head (pat rep p2 : List Char) (hpat : pat ≠ []) :
    replaceFirst pat rep (pat ++ p2) = rep ++ p2 := by
  obtain ⟨c, t, rfl⟩ : ∃ c t, pat = c :: t := by
    cases pat with
    | nil => exact absurd rfl hpat
    | cons c t => exact ⟨c, t, rfl⟩
  have hpre : (c :: t).isPrefixOf ((c :: t) ++ p2) = true :=
    List.isPrefixOf_iff_prefix.mpr (List.prefix_append _ _)
  show replaceFirst (c :: t) rep (c :: (t ++ p2)) = rep ++ p2
  simp only [replaceFirst]
  rw [show c :: (t ++ p2) = (c :: t) ++ p2 from rfl, hpre]
  simp [List.drop_left]

theorem replaceFirst_append (pat rep : List Char) (hpat : pat ≠ []) :
    ∀ p1 p2, ¬ (pat <:+: p1 ++ pat.dropLast) →
      replaceFirst pat rep (p1 ++ pat ++ p2) = p1 ++ rep ++ p2 := by
  intro p1
  induction p1 with
  | nil =>
    intro p2 _
    simpa using replaceFirst_at_head pat rep p2 hpat
  | cons a p1' ih =>
    intro p2 hfirst
    have hlen : pat.length ≤ ((a :: p1') ++ pat.dropLast).length := by
      have : pat.length ≥ 1 := by
        cases pat with
        | nil => exact absurd rfl hpat
        | cons _ _ => simp
      simp only [List.length_append, List.length_cons, List.length_dropLast]
      omega
    have hnp : ¬ pat.isPrefixOf ((a :: p1') ++ pat ++ p2) = true := by
      intro hc
      have hpre : pat <+: (a :: p1') ++ pat ++ p2 :=
        List.isPrefixOf_iff_prefix.mp hc
      have hmid : (a :: p1') ++ pat.dropLast <+: (a :: p1') ++ pat ++ p2 := by
        have h1 : pat.dropLast <+: pat := List.dropLast_prefix pat
        have h2 : (a :: p1') ++ pat.dropLast <+: (a :: p1') ++ pat := by
          obtain ⟨w, hw⟩ := h1
          exact ⟨w, by rw [List.append_assoc, hw]⟩
        exact h2.trans (List.prefix_append _ _)
      have : pat <+: (a :: p1') ++ pat.dropLast :=
        List.prefix_of_prefix_length_le hpre hmid hlen
      exact hfirst this.isInfix
    have hfirst' : ¬ (pat <:+: p1' ++ pat.dropLast) := by
      intro hc
      exact hfirst (List.infix_cons_iff.mpr (Or.inr hc))
    show replaceFirst pat rep (a :: (p1' ++ pat ++ p2)) = a :: (p1' ++ rep ++ p2)
    simp only [replaceFirst]
    rw [show a :: (p1' ++ pat ++ p2) = (a :: p1') ++ pat ++ p2 from rfl]
    rw [if_neg hnp]
    rw [ih p2 hfirst']

theorem infix_extendR {x m : List Char} (z : List Char) (h : x <:+: m) :
    x <:+: m ++ z :=
  h.trans (List.IsPrefix.isInfix (List.prefix_append m z))

theorem infix_extendL {x m : List Char} (z : List Char) (h : x <:+: m) :
    x <:+: z ++ m :=
  h.trans (List.IsSuffix.isInfix (List.suffix_append z m))

theorem taskText_ghost (pre : List Part) (a b : Part) (t q asp : List Char) :
    taskTextOf ⟨pre ++ [a, b, Part.text t], q, asp⟩ = t := by
  rw [show pre ++ [a, b, Part.text t] = (pre ++ [a, b]) ++ [Part.text t] by simp]
  exact taskText_concat _ _ _ _

theorem ghostUnit_task_contains (ana : Nat → Nat → Except ErrVal AnalysisResult)
    (gen : GenCall → Nat → Except ErrVal GenResponse)
    (apiKey imageQuality : List Char) (useRef : Bool)
    (refData selBT : List Char) (p1 p2 : List Char) (img : SourceImage)
    (hfirst : ¬ (bodyPh <:+: p1 ++ bodyPh.dropLast))
    (hlater : bodyPh <:+: p2) :
    (genCallsOf (ghostUnit ana gen apiKey (p1 ++ bodyPh ++ p2) imageQuality
        useRef refData selBT img).2).all
      (fun c => containsSub (taskTextOf c) bodyPh) = true := by
  unfold ghostUnit
  simp only [genCallsOf_append, genCallsOf_analyze, genCallsOf_callGen,
    List.nil_append, List.all_append, Bool.and_eq_true]
  by_cases h : apiKey = []
  · simp [h]
  · simp only [h, reduceIte, List.all_cons, List.all_nil, Bool.and_true]
    rw [taskText_ghost]
    rw [replaceFirst_append bodyPh selBT (by decide) p1 p2 hfirst]
    rw [containsSub_iff]
    have h2 : bodyPh <:+: p1 ++ selBT ++ p2 :=
      hlater.trans (List.IsSuffix.isInfix (List.suffix_append _ _))
    exact infix_extendL _ (infix_extendR _ (infix_extendR _ (infix_extendR _
      (infix_extendR _ h2))))

theorem ghostRun_task_contains (ana : Nat → Nat → Except ErrVal AnalysisResult)
    (gen : GenCall → Nat → Except ErrVal GenResponse)
    (apiKey imageQuality : List Char) (useRef : Bool)
    (refData selBT : List Char) (p1 p2 : List Char)
    (hfirst : ¬ (bodyPh <:+: p1 ++ bodyPh.dropLast))
    (hlater : bodyPh <:+: p2) : ∀ imgs : List SourceImage,
    (genCallsOf (ghostRun ana gen apiKey (p1 ++ bodyPh ++ p2) imageQuality
        useRef refData selBT imgs).2).all
      (fun c => containsSub (taskTextOf c) bodyPh) = true := by
  intro l
  induction l with
  | nil => rfl
  | cons x t ih =>
    simp only [ghostRun, List.map_cons, List.flatten_cons, genCallsOf_append,
      List.all_append, Bool.and_eq_true] at ih ⊢
    exact ⟨ghostUnit_task_contains ana gen apiKey imageQuality useRef refData
      selBT p1 p2 x hfirst hlater, ih⟩

/-- C10: the `<BodyType>` placeholder is substituted at its first occurrence
only — for an instruction text `p1 ++ "<BodyType>" ++ p2` whose first
placeholder occurrence starts right after `p1` and which contains the
placeholder again inside `p2`, the composed text is `p1 ++ bodyType ++ p2`:
the selected body type replaces the first occurrence while every later
occurrence remains literally, both in the composed prompt and in the
instruction text of every generation request the per-image batch sends to
the generation adapter. -/
theorem bodyType_placeholder_first_occurrence_only (p1 p2 bt : List Char)
    (ana : Nat → Nat → Except ErrVal AnalysisResult)
    (gen : GenCall → Nat → Except ErrVal GenResponse)
    (imgs : List SourceImage) (key quality : List Char)
    (ref : Option (List Char)) (angles : Option (List (List Char)))
    (btOpt : Option (List Char)) (aspect : List Char)
    (env ctx : Option (List Char))
    (hfirst : ¬ (bodyPh <:+: p1 ++ bodyPh.dropLast))
    (hlater : bodyPh <:+: p2) :
    replaceFirst bodyPh bt (p1 ++ bodyPh ++ p2) = p1 ++ bt ++ p2
    ∧ bodyPh <:+: replaceFirst bodyPh bt (p1 ++ bodyPh ++ p2)
    ∧ ((genCallsOf (processImagesWithGemini ana gen imgs
          PresetType.GHOST_MANNEQUIN (p1 ++ bodyPh ++ p2) key quality ref
          angles btOpt aspect env ctx).2).all
        fun c => containsSub (taskTextOf c) bodyPh) = true := by
  have h1 := replaceFirst_append bodyPh bt (by decide) p1 p2 hfirst
  refine ⟨h1, ?_, ?_⟩
  · rw [h1]
    exact hlater.trans (List.IsSuffix.isInfix (List.suffix_append _ _))
  · simp only [processImagesWithGemini, reduceIte]
    exact ghostRun_task_contains ana gen key quality _ _ _ p1 p2 hfirst
      hlater imgs

/-- Witness for C10 at `"A <BodyType> mid <BodyType> end"` with body type
`Men`. -/
theorem bodyType_placeholder_first_occurrence_only_witness :
    replaceFirst bodyPh (s "Men") (s "A " ++ bodyPh ++ s " mid <BodyType> end")
      = s "A " ++ s "Men" ++ s " mid <BodyType> end"
    ∧ bodyPh <:+: replaceFirst bodyPh (s "Men")
        (s "A " ++ bodyPh ++ s " mid <BodyType> end")
    ∧ ((genCallsOf (processImagesWithGemini anaOK genOK [⟨s "Front View", 0⟩]
          PresetType.GHOST_MANNEQUIN
          (s "A " ++ bodyPh ++ s " mid <BodyType> end") (s "k") (s "1K") none
          none none (s "1:1") none none).2).all
        fun c => containsSub (taskTextOf c) bodyPh) = true :=
  bodyType_placeholder_first_occurrence_only (s "A ")
    (s " mid <BodyType> end") (s "Men") anaOK genOK [⟨s "Front View", 0⟩]
    (s "k") (s "1K") none none none (s "1:1") none none (by decide) (by decide)

end NanoStudio
